import Mathlib

/-!
Shallow embedding of the offline synchronization queue of
`src/services/OfflineSyncManager.js` (attendance-kiosk-mobile).

The manager's mutable instance fields (`isOnline`, `syncQueue`,
`syncInProgress`, `listeners`) become a `SyncState` record, threaded
explicitly.  `AsyncStorage` is modelled as a key/value association list
inside the state, with an `Env` oracle deciding whether a given
`setItem`/`getItem` call throws.  The outcome of the HTTP request made by
`syncItem` is the oracle `Env.deliver`.  `new Date().toISOString()` is the
oracle `Env.now`.  Listener callbacks are modelled by appending each
notified event to an `events` log (the JS code calls every subscriber with
the event object, in order; the log records exactly the sequence of
notifications delivered).  Thrown JS exceptions become `Except.error`; a
method that can throw returns the state reached at the throw point
together with the `Except` value, matching JS semantics where mutations
performed before a throw persist.
-/

namespace OfflineSync

/-- Scalar JSON-like value used for the records handed to `resolveConflict`.
Timestamps are modelled as integer epoch milliseconds (`JVal.n`); the JS
code also accepts date strings via `new Date(...)`, which this model does
not parse. -/
inductive JVal where
  | s (v : String)
  | n (v : Int)
  | b (v : Bool)
deriving DecidableEq

/-- Record (JS object) for conflict resolution: an ordered list of
key/value fields, first occurrence of a key is the binding. -/
abbrev JRecord := List (String × JVal)

/-- One buffered operation awaiting delivery: the `queueItem` object built
in `addToQueue` (lines 77-86 of OfflineSyncManager.js).  `lastError` is
absent until the first failed delivery. -/
structure Item where
  id : Nat
  timestamp : String
  operation : String
  data : String
  url : String
  method : String
  retries : Nat
  status : String
  lastError : Option String
deriving DecidableEq

/-- One entry of `results.errors` pushed in `syncAll` (lines 174-178). -/
structure SyncError where
  id : Nat
  operation : String
  error : String
deriving DecidableEq

/-- The `results` accumulator of `syncAll` (lines 150-155). -/
structure SyncResult where
  total : Nat
  succeeded : Nat
  failed : Nat
  errors : List SyncError
deriving DecidableEq

/-- Event objects passed to `notifyListeners`. -/
inductive Event where
  | online (b : Bool)
  | syncStarted
  | syncCompleted (results : SyncResult)
deriving DecidableEq

/-- A value held in a persistent storage slot.  `corrupt` stands for bytes
on which `JSON.parse` throws. -/
inductive StoredValue where
  | queueVal (items : List Item)
  | statusVal (timestamp : String) (results : SyncResult)
  | corrupt
deriving DecidableEq

/-- The `state` object of a NetInfo notification or fetch. -/
structure NetState where
  isConnected : Bool
  isInternetReachable : Bool
deriving DecidableEq

/-- The caller-supplied argument of `addToQueue` (`operation.type`,
`operation.data`, `operation.url`, `operation.method`). -/
structure Operation where
  type : String
  data : String
  url : String
  method : Option String
deriving DecidableEq

/-- External world oracle: HTTP delivery outcome, storage fault injection,
the NetInfo probe, and the wall clock. -/
structure Env where
  deliver : Item → Except String Unit
  setItemFails : String → Bool
  getItemFails : String → Bool
  netFetch : Except String NetState
  now : String

/-- Mutable fields of the OfflineSyncManager instance, plus the storage
contents and the log of events delivered to listeners. -/
structure SyncState where
  isOnline : Bool
  syncQueue : List Item
  syncInProgress : Bool
  listeners : List Nat
  events : List Event
  storage : List (String × StoredValue)
deriving DecidableEq

/-- Key of the persisted queue slot (line 14). -/
def QUEUE_KEY : String := "offline_sync_queue"

/-- Key of the persisted last-sync-status slot (line 15). -/
def SYNC_STATUS_KEY : String := "last_sync_status"

/-- The retry budget `this.maxRetries = 3` set in the constructor (line 24)
and never reassigned. -/
def maxRetries : Nat := 3

/-- State of a manager as built by the constructor (lines 18-25), over
given pre-existing storage contents. -/
def initialState (storage : List (String × StoredValue)) : SyncState :=
  { isOnline := true, syncQueue := [], syncInProgress := false,
    listeners := [], events := [], storage := storage }

/-- Overwrite of one storage slot (`AsyncStorage.setItem`). -/
def storeSet (st : List (String × StoredValue)) (k : String) (v : StoredValue) :
    List (String × StoredValue) :=
  (k, v) :: st.filter (fun kv => kv.1 ≠ k)

/-- Read of one storage slot (`AsyncStorage.getItem`); `none` models a
missing slot (JS `null`). -/
def storeGet (st : List (String × StoredValue)) (k : String) : Option StoredValue :=
  match st with
  | [] => none
  | kv :: rest => if kv.1 = k then some kv.2 else storeGet rest k

/-- Method `notifyListeners` (lines 67-69): every subscriber receives the
event; the model appends it to the notification log. -/
def notifyListeners (e : Event) (s : SyncState) : SyncState :=
  { s with events := s.events ++ [e] }

/-- Method `saveQueue` (lines 102-108): serialize the in-memory queue into
the queue slot; a `setItem` failure is caught and logged, leaving the
storage unchanged. -/
def saveQueue (env : Env) (s : SyncState) : SyncState :=
  if env.setItemFails QUEUE_KEY then s
  else { s with storage := storeSet s.storage QUEUE_KEY (.queueVal s.syncQueue) }

/-- Method `loadQueue` (lines 113-123): a missing slot leaves the queue
as-is; a throwing `getItem` or an unparsable slot is caught and the queue
set to `[]`.  A `statusVal` under the queue key is treated like corrupt
data (the two slots use distinct keys, so this never arises). -/
def loadQueue (env : Env) (s : SyncState) : SyncState :=
  if env.getItemFails QUEUE_KEY then { s with syncQueue := [] }
  else
    match storeGet s.storage QUEUE_KEY with
    | none => s
    | some (.queueVal items) => { s with syncQueue := items }
    | some _ => { s with syncQueue := [] }

/-- Guard of the drain loop (line 161): attempt the item iff it is pending,
or failed with retries below the budget. -/
def attemptable (item : Item) : Bool :=
  item.status = "pending" || (item.status = "failed" && item.retries < maxRetries)

/-- The in-place mutation applied to an item on a failed delivery
(lines 170-172). -/
def failUpdate (item : Item) (msg : String) : Item :=
  { item with retries := item.retries + 1, status := "failed", lastError := some msg }

/-- Effect of one iteration of the `syncAll` loop on the live queue
(lines 160-186).  The JS code mutates the queue entry aliased with the
snapshot item; since ids are unique in practice (and the theorems below
assume so), this is modelled by replacing the entry whose id matches. -/
def queueStep (env : Env) (q : List Item) (item : Item) : List Item :=
  if attemptable item then
    match env.deliver item with
    | .ok _ => q.filter (fun i => i.id ≠ item.id)
    | .error msg =>
        let u := failUpdate item msg
        let q2 := q.map (fun i => if i.id = item.id then u else i)
        if maxRetries ≤ u.retries then q2.filter (fun i => i.id ≠ item.id) else q2
  else q

/-- Effect of one iteration of the `syncAll` loop on the `results`
accumulator (lines 162-178). -/
def resultStep (env : Env) (r : SyncResult) (item : Item) : SyncResult :=
  if attemptable item then
    match env.deliver item with
    | .ok _ => { r with succeeded := r.succeeded + 1 }
    | .error msg =>
        { r with failed := r.failed + 1,
                 errors := r.errors ++ [⟨item.id, item.operation, msg⟩] }
  else r

/-- The whole drain loop acting on the live queue, iterating over the
snapshot `itemsToSync` (line 158). -/
def drainQueue (env : Env) (snapshot : List Item) (q : List Item) : List Item :=
  snapshot.foldl (queueStep env) q

/-- The whole drain loop acting on the results accumulator. -/
def drainResults (env : Env) (snapshot : List Item) (r : SyncResult) : SyncResult :=
  snapshot.foldl (resultStep env) r

/-- The fresh `results` object of line 150. -/
def initResults (s : SyncState) : SyncResult :=
  { total := s.syncQueue.length, succeeded := 0, failed := 0, errors := [] }

/-- Outcome value of a completed `syncAll` call: either the early
`{success:false, reason}` rejection object or the `results` object. -/
inductive SyncOutcome where
  | rejected (reason : String)
  | completed (results : SyncResult)
deriving DecidableEq

/-- Method `syncAll` (lines 142-203).  The final `AsyncStorage.setItem` on
the status slot (line 191) is not inside any try/catch, so its failure
propagates as an exception, after the queue save but before the
`syncInProgress` reset and the completion notification; the model returns
the state reached at the throw point together with `Except.error`. -/
def syncAll (env : Env) (s : SyncState) : SyncState × Except String SyncOutcome :=
  if !s.isOnline || s.syncInProgress then
    (s, .ok (.rejected (if s.syncInProgress then "sync_in_progress" else "offline")))
  else
    let s1 := notifyListeners .syncStarted { s with syncInProgress := true }
    let r := drainResults env s1.syncQueue (initResults s1)
    let q2 := drainQueue env s1.syncQueue s1.syncQueue
    let s2 := saveQueue env { s1 with syncQueue := q2 }
    if env.setItemFails SYNC_STATUS_KEY then (s2, .error "storage_error")
    else
      let s3 := { s2 with storage := storeSet s2.storage SYNC_STATUS_KEY (.statusVal env.now r) }
      let s4 := notifyListeners (.syncCompleted r) { s3 with syncInProgress := false }
      (s4, .ok (.completed r))

/-- The `queueItem` object constructed by `addToQueue` (lines 77-86).  The
fresh id (`Date.now() + Math.random()`) is an explicit argument;
`operation.method || 'POST'` maps a missing or empty method to `"POST"`. -/
def mkQueueItem (newId : Nat) (now : String) (op : Operation) : Item :=
  { id := newId, timestamp := now, operation := op.type, data := op.data,
    url := op.url,
    method := match op.method with
              | none => "POST"
              | some m => if m = "" then "POST" else m,
    retries := 0, status := "pending", lastError := none }

/-- Method `addToQueue` (lines 76-97): append the new item, persist, and
if online fire `syncAll` (the JS call is not awaited and its value is
discarded; the model runs its state effect).  Returns the new item's id. -/
def addToQueue (env : Env) (newId : Nat) (op : Operation) (s : SyncState) :
    SyncState × Nat :=
  let s1 := { s with syncQueue := s.syncQueue ++ [mkQueueItem newId env.now op] }
  let s2 := saveQueue env s1
  if s2.isOnline then ((syncAll env s2).1, newId) else (s2, newId)

/-- Method `clearQueue` (lines 227-230). -/
def clearQueue (env : Env) (s : SyncState) : SyncState :=
  saveQueue env { s with syncQueue := [] }

/-- Method `removeQueueItem` (lines 304-307). -/
def removeQueueItem (env : Env) (id : Nat) (s : SyncState) : SyncState :=
  saveQueue env { s with syncQueue := s.syncQueue.filter (fun i => i.id ≠ id) }

/-- Method `forceSync` (lines 287-292): raises while offline, otherwise
returns exactly what `syncAll` returns. -/
def forceSync (env : Env) (s : SyncState) : SyncState × Except String SyncOutcome :=
  if !s.isOnline then (s, .error "Cannot sync while offline")
  else syncAll env s

/-- Method `initialize` (lines 32-55): load the queue (internal catches
only), register the NetInfo handler (no immediate state effect; the
handler's body is `handleNetChange` below), then probe connectivity.  The
method has no try/catch of its own, so a failing `NetInfo.fetch` rejects
the call. -/
def initManager (env : Env) (s : SyncState) : SyncState × Except String Bool :=
  let s1 := loadQueue env s
  match env.netFetch with
  | .error msg => (s1, .error msg)
  | .ok st =>
      let s2 := { s1 with isOnline := st.isConnected && st.isInternetReachable }
      (s2, .ok s2.isOnline)

/-- Body of the NetInfo listener registered in `initialize` (lines 37-48):
recompute the boolean, notify listeners unconditionally with
`{online: bool}`, and on an offline-to-online transition fire `syncAll`. -/
def handleNetChange (env : Env) (st : NetState) (s : SyncState) : SyncState :=
  let wasOnline := s.isOnline
  let newOnline := st.isConnected && st.isInternetReachable
  let s1 := notifyListeners (.online newOnline) { s with isOnline := newOnline }
  if !wasOnline && newOnline then (syncAll env s1).1 else s1

/-- Lookup of a field in a record: first binding of the key. -/
def lookupKey (k : String) : JRecord → Option JVal
  | [] => none
  | kv :: rest => if kv.1 = k then some kv.2 else lookupKey k rest

/-- JS object spread `{...a, ...b}`: keys of `a` in order with values
overridden by `b` where present, then keys of `b` absent from `a`. -/
def spread (a b : JRecord) : JRecord :=
  a.map (fun kv => match lookupKey kv.1 b with
                   | some v => (kv.1, v)
                   | none => kv)
  ++ b.filter (fun kv => (lookupKey kv.1 a).isNone)

/-- Value of `new Date(r.timestamp || 0)` as epoch milliseconds, for the
numeric-or-absent timestamps this model covers: a missing or non-numeric
timestamp is epoch 0. -/
def getTime (r : JRecord) : Int :=
  match lookupKey "timestamp" r with
  | some (.n v) => v
  | _ => 0

/-- Method `resolveConflict` (lines 249-273).  The clock read
`new Date().toISOString()` used for the `_mergedAt` marker is `env.now`. -/
def resolveConflict (env : Env) (serverData localData : JRecord)
    (strategy : String) : JRecord :=
  if strategy = "server_wins" then serverData
  else if strategy = "local_wins" then localData
  else if strategy = "merge" then
    spread (spread serverData localData)
      [("_merged", JVal.b true), ("_mergedAt", JVal.s env.now)]
  else if strategy = "newer_wins" then
    if getTime serverData < getTime localData then localData else serverData
  else serverData

/-- Sequence of `addToQueue` calls, each with its fresh id. -/
def enqueueAll (env : Env) (calls : List (Nat × Operation)) (s : SyncState) :
    SyncState :=
  calls.foldl (fun st c => (addToQueue env c.1 c.2 st).1) s

/-- Iterated drain passes: `runPasses env k s` performs `k` consecutive
`syncAll` invocations. -/
def runPasses (env : Env) : Nat → SyncState → SyncState
  | 0, s => s
  | k + 1, s => runPasses env k (syncAll env s).1

/-- Net effect of one drain pass on a single queue entry with a unique id:
removed on success or on reaching the retry budget, updated on a
recoverable failure, untouched when not attempted. -/
def passFate (env : Env) (item : Item) : Option Item :=
  if attemptable item then
    match env.deliver item with
    | .ok _ => none
    | .error msg =>
        let u := failUpdate item msg
        if maxRetries ≤ u.retries then none else some u
  else some item

/-- Boolean success test of a delivery outcome. -/
def isOkB : Except String Unit → Bool
  | .ok _ => true
  | .error _ => false

/-- The error entry contributed by an item to `results.errors`, if any. -/
def errEntry (env : Env) (i : Item) : Option SyncError :=
  if attemptable i then
    match env.deliver i with
    | .ok _ => none
    | .error m => some ⟨i.id, i.operation, m⟩
  else none

/-- The drain item that reaches retries `k` after `k` consecutive failed
attempts with message `msg`. -/
def trackedItem (x : Item) (msg : String) : Nat → Item
  | 0 => x
  | k + 1 => failUpdate (trackedItem x msg k) msg

/-- The aggregate results of one pass over the queue of `s`. -/
def syncPassResults (env : Env) (s : SyncState) : SyncResult :=
  drainResults env s.syncQueue (initResults s)

/-! ### Concrete fixtures used by witnesses and counterexamples -/

/-- Fault-free environment: every delivery succeeds, storage never throws,
the connectivity probe reports a reachable connection. -/
def envTrivial : Env :=
  { deliver := fun _ => .ok (), setItemFails := fun _ => false,
    getItemFails := fun _ => false, netFetch := .ok ⟨true, true⟩, now := "t0" }

/-- Environment whose deliveries always fail. -/
def envAllFail : Env := { envTrivial with deliver := fun _ => .error "boom" }

/-- Environment where exactly the last-sync-status slot write throws. -/
def envStatusWriteFails : Env :=
  { envTrivial with setItemFails := fun k => k = SYNC_STATUS_KEY }

/-- Environment whose connectivity probe rejects. -/
def envNetDown : Env := { envTrivial with netFetch := .error "netinfo down" }

/-- Environment delivering the item with id 1 and failing every other. -/
def envMixed : Env :=
  { envTrivial with deliver := fun i => if i.id = 1 then .ok () else .error "boom" }

/-- Clock fixture A. -/
def envClockA : Env := { envTrivial with now := "2024-01-01T00:00:00.000Z" }

/-- Clock fixture B. -/
def envClockB : Env := { envTrivial with now := "2024-01-02T00:00:00.000Z" }

/-- A fresh pending queue item. -/
def itemOne : Item :=
  { id := 1, timestamp := "t", operation := "attendance", data := "d1",
    url := "u1", method := "POST", retries := 0, status := "pending",
    lastError := none }

/-- A second fresh pending queue item. -/
def itemTwo : Item := { itemOne with id := 2, data := "d2", url := "u2" }

/-- Online idle manager holding one pending item. -/
def stateOne : SyncState :=
  { isOnline := true, syncQueue := [itemOne], syncInProgress := false,
    listeners := [], events := [], storage := [] }

/-- Online idle manager holding two pending items. -/
def stateTwo : SyncState := { stateOne with syncQueue := [itemOne, itemTwo] }

/-- Offline idle manager. -/
def stateOffline : SyncState := { stateOne with isOnline := false }

/-- Online manager with a drain already in progress. -/
def stateDraining : SyncState := { stateOne with syncInProgress := true }

/-- Offline manager with a drain already in progress. -/
def stateOffDraining : SyncState :=
  { stateOne with isOnline := false, syncInProgress := true }

/-- Offline idle manager with an empty queue. -/
def stateOfflineEmpty : SyncState := { stateOffline with syncQueue := [] }

/-- Two enqueue calls used by the C5 witness. -/
def callsFixture : List (Nat × Operation) :=
  [(10, ⟨"attendance", "d", "u", none⟩), (11, ⟨"attendance", "d", "u", some "PUT"⟩)]

/-! ### Auxiliary list lemmas -/

lemma aux_filter_all {p : Item → Bool} {l : List Item} (h : ∀ i ∈ l, p i = true) :
    l.filter p = l := by
  induction l with
  | nil => rfl
  | cons a t ih =>
      simp only [List.filter_cons, h a (List.mem_cons_self a t), if_true]
      exact congrArg (a :: ·) (ih fun i hi => h i (List.mem_cons_of_mem a hi))

lemma aux_filter_none {p : Item → Bool} {l : List Item} (h : ∀ i ∈ l, p i = false) :
    l.filter p = [] := by
  induction l with
  | nil => rfl
  | cons a t ih =>
      simp only [List.filter_cons, h a (List.mem_cons_self a t)]
      exact ih fun i hi => h i (List.mem_cons_of_mem a hi)

lemma aux_map_id {f : Item → Item} {l : List Item} (h : ∀ i ∈ l, f i = i) :
    l.map f = l := by
  induction l with
  | nil => rfl
  | cons a t ih =>
      simp only [List.map_cons, h a (List.mem_cons_self a t)]
      exact congrArg (a :: ·) (ih fun i hi => h i (List.mem_cons_of_mem a hi))

/-! ### One loop iteration -/

lemma passFate_id {env : Env} {i u : Item} (h : passFate env i = some u) :
    u.id = i.id := by
  unfold passFate at h
  split at h
  · cases hd : env.deliver i with
    | ok v => rw [hd] at h; simp at h
    | error m =>
        rw [hd] at h
        simp only at h
        split at h
        · simp at h
        · cases h; rfl
  · cases h; rfl

lemma failUpdate_id (i : Item) (msg : String) : (failUpdate i msg).id = i.id := rfl

/-- Effect of one loop iteration on a queue split around the processed item,
when every other entry has a different id. -/
lemma queueStep_frame (env : Env) (x : Item) (C L2 : List Item)
    (hC : ∀ c ∈ C, c.id ≠ x.id) (hL : ∀ c ∈ L2, c.id ≠ x.id) :
    queueStep env (C ++ x :: L2) x = C ++ (passFate env x).toList ++ L2 := by
  unfold queueStep passFate
  split
  · cases hd : env.deliver x with
    | ok v =>
        simp only [Option.toList, List.append_nil]
        rw [List.filter_append, List.filter_cons]
        have h1 : C.filter (fun i => !decide (i.id = x.id)) = C :=
          aux_filter_all fun i hi => by simp [hC i hi]
        have h2 : L2.filter (fun i => !decide (i.id = x.id)) = L2 :=
          aux_filter_all fun i hi => by simp [hL i hi]
        simp only [ne_eq, decide_not, h1, h2]
        simp
    | error m =>
        simp only
        have hmap : (C ++ x :: L2).map
            (fun i => if i.id = x.id then failUpdate x m else i)
            = C ++ failUpdate x m :: L2 := by
          rw [List.map_append, List.map_cons]
          have h1 : C.map (fun i => if i.id = x.id then failUpdate x m else i) = C :=
            aux_map_id fun i hi => by simp [hC i hi]
          have h2 : L2.map (fun i => if i.id = x.id then failUpdate x m else i) = L2 :=
            aux_map_id fun i hi => by simp [hL i hi]
          simp [h1, h2]
        rw [hmap]
        split
        · rw [List.filter_append, List.filter_cons]
          have h1 : C.filter (fun i => !decide (i.id = x.id)) = C :=
            aux_filter_all fun i hi => by simp [hC i hi]
          have h2 : L2.filter (fun i => !decide (i.id = x.id)) = L2 :=
            aux_filter_all fun i hi => by simp [hL i hi]
          simp only [ne_eq, decide_not, h1, h2]
          simp [failUpdate_id]
        · simp
  · simp

/-! ### The drain loop as a filterMap -/

lemma drainQueue_go (env : Env) :
    ∀ (L C : List Item), (∀ c ∈ C, ∀ x ∈ L, c.id ≠ x.id) →
    (L.map Item.id).Nodup →
    drainQueue env L (C ++ L) = C ++ L.filterMap (passFate env) := by
  intro L
  induction L with
  | nil => intro C _ _; simp [drainQueue]
  | cons x L2 ih =>
      intro C hd hn
      have hC : ∀ c ∈ C, c.id ≠ x.id := fun c hc =>
        hd c hc x (List.mem_cons_self x L2)
      have hxL2 : ∀ c ∈ L2, c.id ≠ x.id := by
        intro c hc
        have := (List.nodup_cons.mp hn).1
        intro hEq
        exact this (hEq ▸ List.mem_map_of_mem Item.id hc)
      have step : queueStep env (C ++ x :: L2) x
          = (C ++ (passFate env x).toList) ++ L2 := by
        rw [queueStep_frame env x C L2 hC hxL2, List.append_assoc]
      have hd2 : ∀ c ∈ C ++ (passFate env x).toList, ∀ y ∈ L2, c.id ≠ y.id := by
        intro c hc y hy
        rcases List.mem_append.mp hc with h | h
        · exact hd c h y (List.mem_cons_of_mem x hy)
        · have hcx : c.id = x.id := by
            cases hf : passFate env x with
            | none => rw [hf] at h; simp [Option.toList] at h
            | some u =>
                rw [hf] at h
                simp [Option.toList] at h
                exact h ▸ passFate_id hf
          rw [hcx]
          exact fun hEq => hxL2 y hy hEq.symm
      have hn2 : (L2.map Item.id).Nodup := (List.nodup_cons.mp hn).2
      calc drainQueue env (x :: L2) (C ++ x :: L2)
          = drainQueue env L2 (queueStep env (C ++ x :: L2) x) := rfl
        _ = drainQueue env L2 ((C ++ (passFate env x).toList) ++ L2) := by rw [step]
        _ = (C ++ (passFate env x).toList) ++ L2.filterMap (passFate env) :=
            ih (C ++ (passFate env x).toList) hd2 hn2
        _ = C ++ (x :: L2).filterMap (passFate env) := by
            rw [List.filterMap_cons]
            cases passFate env x <;> simp [Option.toList]

/-- A drain pass over a queue with pairwise distinct ids acts as a
per-item `filterMap`. -/
lemma drainQueue_spec (env : Env) (q : List Item)
    (hn : (q.map Item.id).Nodup) :
    drainQueue env q q = q.filterMap (passFate env) := by
  have := drainQueue_go env q [] (by simp) hn
  simpa using this

/-- The results accumulator of the drain loop, in closed form. -/
lemma drainResults_go (env : Env) :
    ∀ (L : List Item) (r : SyncResult),
    drainResults env L r =
      { total := r.total,
        succeeded := r.succeeded
          + L.countP (fun i => attemptable i && isOkB (env.deliver i)),
        failed := r.failed
          + L.countP (fun i => attemptable i && !(isOkB (env.deliver i))),
        errors := r.errors ++ L.filterMap (errEntry env) } := by
  intro L
  induction L with
  | nil => intro r; simp [drainResults]
  | cons x L ih =>
      intro r
      have hstep : drainResults env (x :: L) r
          = drainResults env L (resultStep env r x) := rfl
      rw [hstep, ih]
      unfold resultStep errEntry
      by_cases ha : attemptable x
      · cases hd : env.deliver x with
        | ok v =>
            simp only [ha, if_true, hd, isOkB, List.countP_cons, List.filterMap_cons]
            simp [SyncResult.mk.injEq, Bool.and_comm]
            omega
        | error m =>
            simp only [ha, if_true, hd, isOkB, List.countP_cons, List.filterMap_cons]
            simp [SyncResult.mk.injEq, Bool.and_comm]
            omega
      · simp only [Bool.not_eq_true] at ha
        simp [ha, List.countP_cons, List.filterMap_cons]

/-! ### syncAll in closed form -/

/-- A guarded run of `syncAll` (online, idle, storage writes succeeding):
the queue is drained, both slots are rewritten, the flag returns to false,
and the two lifecycle events are emitted around the results. -/
lemma syncAll_run (env : Env) (s : SyncState)
    (hon : s.isOnline = true) (hip : s.syncInProgress = false)
    (hsw : env.setItemFails SYNC_STATUS_KEY = false)
    (hqw : env.setItemFails QUEUE_KEY = false) :
    syncAll env s =
      ({ isOnline := s.isOnline,
         syncQueue := drainQueue env s.syncQueue s.syncQueue,
         syncInProgress := false,
         listeners := s.listeners,
         events := s.events ++ [Event.syncStarted,
                    Event.syncCompleted (syncPassResults env s)],
         storage := storeSet
           (storeSet s.storage QUEUE_KEY
             (.queueVal (drainQueue env s.syncQueue s.syncQueue)))
           SYNC_STATUS_KEY (.statusVal env.now (syncPassResults env s)) },
       .ok (.completed (syncPassResults env s))) := by
  unfold syncAll syncPassResults initResults
  rw [hon, hip]
  simp [notifyListeners, saveQueue, hqw, hsw]

/-- Method `syncAll` never changes the online flag. -/
lemma syncAll_isOnline (env : Env) (s : SyncState) :
    (syncAll env s).1.isOnline = s.isOnline := by
  unfold syncAll
  split
  · rfl
  · simp only [notifyListeners, saveQueue]
    split
    · split <;> rfl
    · split <;> rfl

/-- Method `syncAll` never changes the listener list. -/
lemma syncAll_listeners (env : Env) (s : SyncState) :
    (syncAll env s).1.listeners = s.listeners := by
  unfold syncAll
  split
  · rfl
  · simp only [notifyListeners, saveQueue]
    split
    · split <;> rfl
    · split <;> rfl

/-- Method `syncAll` only appends to the event log. -/
lemma syncAll_events_extends (env : Env) (s : SyncState) :
    ∃ t, (syncAll env s).1.events = s.events ++ t := by
  unfold syncAll
  split
  · exact ⟨[], by simp⟩
  · simp only [notifyListeners, saveQueue]
    split
    · split
      · exact ⟨[Event.syncStarted], rfl⟩
      · exact ⟨[Event.syncStarted], rfl⟩
    · split
      · exact ⟨_, List.append_assoc s.events [Event.syncStarted] _⟩
      · exact ⟨_, List.append_assoc s.events [Event.syncStarted] _⟩

/-! ### Iterated passes -/

/-- Precondition under which a drain pass actually runs and the closed
forms apply: online, idle, and pairwise distinct item ids. -/
def ReadyState (s : SyncState) : Prop :=
  s.isOnline = true ∧ s.syncInProgress = false ∧ (s.syncQueue.map Item.id).Nodup

lemma sublist_ids_filterMap (env : Env) :
    ∀ l : List Item,
    ((l.filterMap (passFate env)).map Item.id).Sublist (l.map Item.id) := by
  intro l
  induction l with
  | nil => simp
  | cons x t ih =>
      rw [List.filterMap_cons]
      cases hf : passFate env x with
      | none => simp only [List.map_cons]; exact ih.cons _
      | some u =>
          simp only [List.map_cons, passFate_id hf]
          exact ih.cons₂ _

lemma nodup_filterMap_passFate (env : Env) {l : List Item}
    (hn : (l.map Item.id).Nodup) :
    ((l.filterMap (passFate env)).map Item.id).Nodup :=
  (sublist_ids_filterMap env l).nodup hn

/-- A guarded pass keeps the state ready and acts as `filterMap passFate`
on the queue. -/
lemma syncAll_ready (env : Env) (s : SyncState) (h : ReadyState s)
    (hst : ∀ key, env.setItemFails key = false) :
    ReadyState (syncAll env s).1 ∧
    (syncAll env s).1.syncQueue = s.syncQueue.filterMap (passFate env) := by
  obtain ⟨hon, hip, hn⟩ := h
  have hrun := syncAll_run env s hon hip (hst _) (hst _)
  have hq : (syncAll env s).1.syncQueue = s.syncQueue.filterMap (passFate env) := by
    rw [hrun]
    exact drainQueue_spec env _ hn
  refine ⟨⟨?_, ?_, ?_⟩, hq⟩
  · rw [syncAll_isOnline]; exact hon
  · rw [hrun]
  · rw [hq]; exact nodup_filterMap_passFate env hn

lemma runPasses_succ_back (env : Env) :
    ∀ (k : Nat) (s : SyncState),
    runPasses env (k + 1) s = (syncAll env (runPasses env k s)).1 := by
  intro k
  induction k with
  | zero => intro s; rfl
  | succ k ih => intro s; exact ih ((syncAll env s).1)

/-- Ready states stay ready under any number of guarded passes. -/
lemma runPasses_ready (env : Env)
    (hst : ∀ key, env.setItemFails key = false) :
    ∀ (k : Nat) (s : SyncState), ReadyState s → ReadyState (runPasses env k s) := by
  intro k
  induction k with
  | zero => intro s h; exact h
  | succ k ih =>
      intro s h
      rw [runPasses_succ_back]
      exact (syncAll_ready env (runPasses env k s) (ih s h) hst).1

/-! ### Tracking one item by id across passes -/

lemma filterMap_filter_id (env : Env) (t : Nat) :
    ∀ l : List Item,
    (l.filterMap (passFate env)).filter (fun i => i.id = t)
      = (l.filter (fun i => i.id = t)).filterMap (passFate env) := by
  intro l
  induction l with
  | nil => rfl
  | cons x l ih =>
      rw [List.filterMap_cons, List.filter_cons]
      by_cases hx : x.id = t
      · cases hf : passFate env x with
        | none => simp [hx, hf, List.filter_cons, List.filterMap_cons, ih]
        | some u =>
            have hu : u.id = x.id := passFate_id hf
            simp [hx, hu, hf, List.filter_cons, List.filterMap_cons, ih]
      · cases hf : passFate env x with
        | none => simp [hx, ih]
        | some u =>
            have hu : u.id = x.id := passFate_id hf
            simp [hx, hu, List.filter_cons, ih]

lemma filter_id_singleton {t : Nat} {x : Item} :
    ∀ {l : List Item}, x ∈ l → x.id = t → (l.map Item.id).Nodup →
    l.filter (fun i => i.id = t) = [x] := by
  intro l
  induction l with
  | nil => intro h; cases h
  | cons y l ih =>
      intro hx hid hn
      rw [List.filter_cons]
      rcases List.mem_cons.mp hx with rfl | hmem
      · rw [if_pos (by simp [hid])]
        have hnil : l.filter (fun i => i.id = t) = [] := by
          apply aux_filter_none
          intro i hi
          have hne : i.id ≠ x.id := by
            intro hEq
            exact (List.nodup_cons.mp hn).1 (hEq ▸ List.mem_map_of_mem Item.id hi)
          simp [hid ▸ hne]
        rw [hnil]
      · have hyx : y.id ≠ t := by
          intro hEq
          have hxl : x.id ∈ l.map Item.id := hid ▸ List.mem_map_of_mem Item.id hmem
          exact (List.nodup_cons.mp hn).1 ((hEq.trans hid.symm) ▸ hxl)
        rw [if_neg (by simp [hyx])]
        exact ih hmem hid (List.nodup_cons.mp hn).2

/-- A singleton id class is preserved (transformed) by a guarded pass. -/
lemma syncAll_track (env : Env) (s : SyncState) (h : ReadyState s)
    (hst : ∀ key, env.setItemFails key = false) (t : Nat) :
    (syncAll env s).1.syncQueue.filter (fun i => i.id = t)
      = (s.syncQueue.filter (fun i => i.id = t)).filterMap (passFate env) := by
  rw [(syncAll_ready env s h hst).2]
  exact filterMap_filter_id env t s.syncQueue

lemma trackedItem_id (x : Item) (msg : String) :
    ∀ k, (trackedItem x msg k).id = x.id := by
  intro k
  induction k with
  | zero => rfl
  | succ k ih => simp [trackedItem, failUpdate, ih]

lemma trackedItem_retries (x : Item) (msg : String) :
    ∀ k, (trackedItem x msg k).retries = x.retries + k := by
  intro k
  induction k with
  | zero => rfl
  | succ k ih => simp [trackedItem, failUpdate, ih]; omega

lemma trackedItem_eq (x : Item) (msg : String) (hr : x.retries = 0) :
    ∀ k, 0 < k →
    trackedItem x msg k
      = { x with retries := k, status := "failed", lastError := some msg } := by
  intro k
  induction k with
  | zero => intro h; cases h
  | succ k ih =>
      intro _
      cases Nat.eq_zero_or_pos k with
      | inl h0 =>
          subst h0
          simp [trackedItem, failUpdate, hr]
      | inr hpos =>
          show failUpdate (trackedItem x msg k) msg = _
          rw [ih hpos]
          simp [failUpdate]

lemma passFate_tracked (env : Env) (x : Item) (msg : String)
    (hp : x.status = "pending") (hr : x.retries = 0)
    (hfail : ∀ i : Item, i.id = x.id → env.deliver i = .error msg) :
    ∀ k, k < maxRetries →
      passFate env (trackedItem x msg k)
        = if maxRetries ≤ k + 1 then none else some (trackedItem x msg (k + 1)) := by
  intro k hk
  have hatt : attemptable (trackedItem x msg k) = true := by
    cases k with
    | zero => simp [trackedItem, attemptable, hp]
    | succ j =>
        rw [trackedItem_eq x msg hr (j + 1) (Nat.succ_pos j)]
        simp [attemptable]
        omega
  have hru : (failUpdate (trackedItem x msg k) msg).retries = k + 1 := by
    simp [failUpdate, trackedItem_retries, hr]
  unfold passFate
  rw [hatt, hfail _ (trackedItem_id x msg k)]
  simp only [if_true]
  show (if maxRetries ≤ (failUpdate (trackedItem x msg k) msg).retries then none
        else some (failUpdate (trackedItem x msg k) msg)) = _
  rw [hru]
  rfl

/-- Across guarded passes, an always-failing fresh item stays in the queue
with one more retry per pass, until the pass in which the counter reaches
the budget evicts it. -/
lemma runPasses_track (env : Env) (s : SyncState) (x : Item) (msg : String)
    (hready : ReadyState s) (hst : ∀ key, env.setItemFails key = false)
    (hmem : x ∈ s.syncQueue) (hp : x.status = "pending") (hr : x.retries = 0)
    (hfail : ∀ i : Item, i.id = x.id → env.deliver i = .error msg) :
    ∀ k, k ≤ maxRetries →
      (runPasses env k s).syncQueue.filter (fun i => i.id = x.id)
        = if k < maxRetries then [trackedItem x msg k] else [] := by
  intro k
  induction k with
  | zero =>
      intro _
      rw [if_pos (by simp [maxRetries])]
      exact filter_id_singleton hmem rfl hready.2.2
  | succ k ih =>
      intro hk1
      have hk : k ≤ maxRetries := Nat.le_of_succ_le hk1
      have hkl : k < maxRetries := Nat.lt_of_succ_le hk1
      rw [runPasses_succ_back]
      have hreadyk := runPasses_ready env hst k s hready
      rw [syncAll_track env _ hreadyk hst x.id]
      rw [ih hk, if_pos hkl]
      simp only [List.filterMap_cons, List.filterMap_nil]
      rw [passFate_tracked env x msg hp hr hfail k hkl]
      by_cases h2 : maxRetries ≤ k + 1
      · rw [if_pos h2, if_neg (by omega)]
      · rw [if_neg h2, if_pos (by omega)]

/-- An id class that is empty stays empty across guarded passes. -/
lemma runPasses_absent (env : Env) (hst : ∀ key, env.setItemFails key = false)
    (t : Nat) :
    ∀ (k : Nat) (s : SyncState), ReadyState s →
      s.syncQueue.filter (fun i => i.id = t) = [] →
      (runPasses env k s).syncQueue.filter (fun i => i.id = t) = [] := by
  intro k
  induction k with
  | zero => intro s _ h; exact h
  | succ k ih =>
      intro s hready h
      show (runPasses env k (syncAll env s).1).syncQueue.filter (fun i => i.id = t) = []
      apply ih _ (syncAll_ready env s hready hst).1
      rw [syncAll_track env s hready hst t, h]
      rfl

lemma passFate_retries_le (env : Env) {i u : Item} (hb : i.retries ≤ maxRetries)
    (h : passFate env i = some u) : u.retries ≤ maxRetries := by
  unfold passFate at h
  split at h
  · cases hd : env.deliver i with
    | ok v => rw [hd] at h; simp at h
    | error m =>
        rw [hd] at h
        simp only at h
        split at h
        · simp at h
        · rename_i hcond
          cases h
          simp only [failUpdate] at hcond ⊢
          omega
  · cases h; exact hb

/-- Retry counters stay bounded by the budget across guarded passes. -/
lemma runPasses_retries_le (env : Env) (hst : ∀ key, env.setItemFails key = false) :
    ∀ (k : Nat) (s : SyncState), ReadyState s →
      (∀ i ∈ s.syncQueue, i.retries ≤ maxRetries) →
      ∀ i ∈ (runPasses env k s).syncQueue, i.retries ≤ maxRetries := by
  intro k
  induction k with
  | zero => intro s _ hb; exact hb
  | succ k ih =>
      intro s hready hb
      show ∀ i ∈ (runPasses env k (syncAll env s).1).syncQueue, i.retries ≤ maxRetries
      apply ih _ (syncAll_ready env s hready hst).1
      intro i hi
      rw [(syncAll_ready env s hready hst).2] at hi
      obtain ⟨j, hj, hf⟩ := List.mem_filterMap.mp hi
      exact passFate_retries_le env (hb j hj) hf

lemma runPasses_add (env : Env) :
    ∀ (a b : Nat) (s : SyncState),
    runPasses env (a + b) s = runPasses env a (runPasses env b s) := by
  intro a b
  induction b with
  | zero => intro s; rfl
  | succ b ih =>
      intro s
      show runPasses env (a + b + 1) s = _
      have h1 : runPasses env (a + b + 1) s = runPasses env (a + b) (syncAll env s).1 := rfl
      rw [h1, ih]
      rfl

lemma aux_countP_congr {p q : Item → Bool} :
    ∀ {l : List Item}, (∀ i ∈ l, p i = q i) → l.countP p = l.countP q := by
  intro l
  induction l with
  | nil => intro _; rfl
  | cons x t ih =>
      intro h
      rw [List.countP_cons, List.countP_cons, h x (List.mem_cons_self x t),
          ih fun i hi => h i (List.mem_cons_of_mem x hi)]

lemma aux_filterMap_congr {β : Type} {f g : Item → Option β} :
    ∀ {l : List Item}, (∀ i ∈ l, f i = g i) → l.filterMap f = l.filterMap g := by
  intro l
  induction l with
  | nil => intro _; rfl
  | cons x t ih =>
      intro h
      rw [List.filterMap_cons, List.filterMap_cons, h x (List.mem_cons_self x t),
          ih fun i hi => h i (List.mem_cons_of_mem x hi)]

lemma aux_countP_split (p : Item → Bool) :
    ∀ l : List Item, l.countP p + l.countP (fun i => !(p i)) = l.length := by
  intro l
  induction l with
  | nil => rfl
  | cons x t ih =>
      rw [List.countP_cons, List.countP_cons, List.length_cons]
      cases h : p x <;> simp [h] <;> omega

lemma mem_id_inj {l : List Item} (hn : (l.map Item.id).Nodup)
    {a b : Item} (ha : a ∈ l) (hb : b ∈ l) (h : a.id = b.id) : a = b :=
  List.inj_on_of_nodup_map hn ha hb h

/-! ### Storage and record lemmas -/

lemma storeGet_set (st : List (String × StoredValue)) (k : String)
    (v : StoredValue) : storeGet (storeSet st k v) k = some v := by
  simp [storeGet, storeSet]

lemma loadQueue_isOnline (env : Env) (s : SyncState) :
    (loadQueue env s).isOnline = s.isOnline := by
  unfold loadQueue
  split
  · rfl
  · split <;> rfl

lemma aux_lookup_append (l1 l2 : JRecord) (k : String) :
    lookupKey k (l1 ++ l2)
      = match lookupKey k l1 with
        | some v => some v
        | none => lookupKey k l2 := by
  induction l1 with
  | nil => simp [lookupKey]
  | cons kv t ih =>
      by_cases h : kv.1 = k
      · simp [lookupKey, h]
      · simp [lookupKey, h, ih]

lemma aux_lookup_filter {p : String × JVal → Bool} {k : String} :
    ∀ {b : JRecord}, (∀ kv ∈ b, kv.1 = k → p kv = true) →
    lookupKey k (b.filter p) = lookupKey k b := by
  intro b
  induction b with
  | nil => intro _; rfl
  | cons kv t ih =>
      intro h
      by_cases hk : kv.1 = k
      · rw [List.filter_cons, h kv (List.mem_cons_self kv t) hk]
        simp [lookupKey, hk]
      · rw [List.filter_cons]
        by_cases hp : p kv = true
        · rw [hp]
          simp only [if_true, lookupKey, hk, if_false]
          exact ih fun e he hke => h e (List.mem_cons_of_mem kv he) hke
        · rw [Bool.not_eq_true] at hp
          rw [hp]
          simp only [Bool.false_eq_true, if_false]
          rw [ih fun e he hke => h e (List.mem_cons_of_mem kv he) hke]
          simp [lookupKey, hk]

lemma aux_lookup_override (b : JRecord) (k : String) :
    ∀ a : JRecord,
    lookupKey k (a.map (fun kv =>
        match lookupKey kv.1 b with
        | some v => (kv.1, v)
        | none => kv))
      = match lookupKey k a with
        | none => none
        | some w =>
            match lookupKey k b with
            | some v => some v
            | none => some w := by
  intro a
  induction a with
  | nil => rfl
  | cons kv t ih =>
      by_cases hk : kv.1 = k
      · cases hb : lookupKey kv.1 b with
        | some v => simp [lookupKey, hk, hb, hk ▸ hb]
        | none => simp [lookupKey, hk, hb, hk ▸ hb]
      · cases hb : lookupKey kv.1 b with
        | some v => simp [lookupKey, hk, hb, ih]
        | none => simp [lookupKey, hk, hb, ih]

/-- Field lookup through a JS object spread: `b` overrides `a`. -/
lemma lookupKey_spread (a b : JRecord) (k : String) :
    lookupKey k (spread a b)
      = match lookupKey k b with
        | some v => some v
        | none => lookupKey k a := by
  rw [spread, aux_lookup_append, aux_lookup_override b k a]
  cases ha : lookupKey k a with
  | some w => cases hb : lookupKey k b <;> simp
  | none =>
      have hfil : lookupKey k (b.filter fun kv => (lookupKey kv.1 a).isNone)
          = lookupKey k b :=
        aux_lookup_filter fun kv _ hkv => by rw [hkv, ha]; rfl
      simp only
      rw [hfil]
      cases hb : lookupKey k b <;> simp [ha]

/-! ### Claim theorems -/

/-- C1: a queue item whose delivery always fails (modelled by a fresh
pending item whose id the delivery oracle always rejects) is, after its
k-th failed drain pass with `k < maxRetries`, still in the queue exactly
once, with retry counter `k` and status "failed"; from the pass in which
the counter reaches `maxRetries` on, no item with its id is in the queue
(so it is never attempted again); and no item of the queue ever carries a
retry counter above `maxRetries`.  The hypotheses (online, idle, distinct
ids, bounded counters, fault-free storage) describe any reachable state in
which drain passes actually run. -/
theorem c1_retry_bound_and_eviction (env : Env) (s : SyncState) (x : Item)
    (msg : String)
    (hon : s.isOnline = true) (hip : s.syncInProgress = false)
    (hnd : (s.syncQueue.map Item.id).Nodup)
    (hst : ∀ key, env.setItemFails key = false)
    (hmem : x ∈ s.syncQueue) (hp : x.status = "pending") (hr : x.retries = 0)
    (hbound : ∀ i ∈ s.syncQueue, i.retries ≤ maxRetries)
    (hfail : ∀ i : Item, i.id = x.id → env.deliver i = Except.error msg) :
    (∀ k, 0 < k → k < maxRetries →
        (runPasses env k s).syncQueue.filter (fun i => i.id = x.id)
          = [{ x with retries := k, status := "failed", lastError := some msg }]) ∧
    (∀ k, maxRetries ≤ k →
        ∀ i ∈ (runPasses env k s).syncQueue, i.id ≠ x.id) ∧
    (∀ k, ∀ i ∈ (runPasses env k s).syncQueue, i.retries ≤ maxRetries) := by
  have hready : ReadyState s := ⟨hon, hip, hnd⟩
  refine ⟨?_, ?_, ?_⟩
  · intro k hk0 hkm
    rw [runPasses_track env s x msg hready hst hmem hp hr hfail k (Nat.le_of_lt hkm),
        if_pos hkm, trackedItem_eq x msg hr k hk0]
  · intro k hk i hi hid
    obtain ⟨m, rfl⟩ := Nat.exists_eq_add_of_le hk
    have hmax : (runPasses env maxRetries s).syncQueue.filter
        (fun i => i.id = x.id) = [] := by
      rw [runPasses_track env s x msg hready hst hmem hp hr hfail maxRetries
            (Nat.le_refl _), if_neg (lt_irrefl _)]
    have hsplit : runPasses env (maxRetries + m) s
        = runPasses env m (runPasses env maxRetries s) := by
      rw [Nat.add_comm, runPasses_add]
    rw [hsplit] at hi
    have habs := runPasses_absent env hst x.id m (runPasses env maxRetries s)
      (runPasses_ready env hst maxRetries s hready) hmax
    have : i ∈ (runPasses env m (runPasses env maxRetries s)).syncQueue.filter
        (fun i => i.id = x.id) := List.mem_filter.mpr ⟨hi, by simp [hid]⟩
    rw [habs] at this
    cases this
  · intro k
    exact runPasses_retries_le env hst k s hready hbound

/-- Witness for C1 at a concrete always-failing one-item queue: after one
pass the item sits in the queue with one retry, and after three passes
nothing with its id remains. -/
theorem c1_witness :
    (runPasses envAllFail 1 stateOne).syncQueue.filter (fun i => i.id = itemOne.id)
      = [{ itemOne with retries := 1, status := "failed", lastError := some "boom" }]
    ∧ ∀ i ∈ (runPasses envAllFail 3 stateOne).syncQueue, i.id ≠ itemOne.id := by
  have h := c1_retry_bound_and_eviction envAllFail stateOne itemOne "boom"
    rfl rfl (by decide) (fun _ => rfl) (by decide) rfl rfl (by decide)
    (fun i _ => rfl)
  exact ⟨h.1 1 (by decide) (by decide), h.2.1 3 (by decide)⟩

/-- C2: a drain pass that actually runs over a well-formed queue (distinct
ids, every item attemptable, fault-free storage) returns a SyncResult
where total is the starting queue length, succeeded and failed count the
delivery outcomes and sum to total, errors holds one {id, operation,
error} entry per failed attempt in order; afterwards every succeeded item
is gone from the queue, and the queue holds exactly the failed items that
did not reach maxRetries, with incremented counters and lastError set. -/
theorem c2_syncresult_accounting (env : Env) (s : SyncState)
    (hon : s.isOnline = true) (hip : s.syncInProgress = false)
    (hst : ∀ key, env.setItemFails key = false)
    (hnd : (s.syncQueue.map Item.id).Nodup)
    (hatt : ∀ i ∈ s.syncQueue, attemptable i = true) :
    (syncAll env s).2 = Except.ok (SyncOutcome.completed (syncPassResults env s)) ∧
    (syncPassResults env s).total = s.syncQueue.length ∧
    (syncPassResults env s).succeeded
      = s.syncQueue.countP (fun i => isOkB (env.deliver i)) ∧
    (syncPassResults env s).failed
      = s.syncQueue.countP (fun i => !(isOkB (env.deliver i))) ∧
    (syncPassResults env s).succeeded + (syncPassResults env s).failed
      = (syncPassResults env s).total ∧
    (syncPassResults env s).errors
      = s.syncQueue.filterMap (fun i =>
          match env.deliver i with
          | .ok _ => none
          | .error m => some ⟨i.id, i.operation, m⟩) ∧
    (syncAll env s).1.syncQueue
      = s.syncQueue.filterMap (fun i =>
          match env.deliver i with
          | .ok _ => none
          | .error m =>
              if maxRetries ≤ i.retries + 1 then none
              else some
                { i with retries := i.retries + 1, status := "failed", lastError := some m }) ∧
    (∀ i ∈ s.syncQueue, isOkB (env.deliver i) = true →
        ∀ j ∈ (syncAll env s).1.syncQueue, j.id ≠ i.id) := by
  have hrun := syncAll_run env s hon hip (hst _) (hst _)
  have hq : (syncAll env s).1.syncQueue = s.syncQueue.filterMap (passFate env) := by
    rw [hrun]
    exact drainQueue_spec env _ hnd
  have hres := drainResults_go env s.syncQueue (initResults s)
  have hsucc : (syncPassResults env s).succeeded
      = s.syncQueue.countP (fun i => isOkB (env.deliver i)) := by
    rw [syncPassResults, hres]
    show 0 + _ = _
    rw [Nat.zero_add]
    exact aux_countP_congr fun i hi => by rw [hatt i hi, Bool.true_and]
  have hfailc : (syncPassResults env s).failed
      = s.syncQueue.countP (fun i => !(isOkB (env.deliver i))) := by
    rw [syncPassResults, hres]
    show 0 + _ = _
    rw [Nat.zero_add]
    exact aux_countP_congr fun i hi => by rw [hatt i hi, Bool.true_and]
  have htot : (syncPassResults env s).total = s.syncQueue.length := by
    rw [syncPassResults, hres]
    rfl
  refine ⟨?_, htot, hsucc, hfailc, ?_, ?_, ?_, ?_⟩
  · rw [hrun]
  · rw [hsucc, hfailc, htot]
    exact aux_countP_split _ s.syncQueue
  · rw [syncPassResults, hres]
    show [] ++ _ = _
    rw [List.nil_append]
    apply aux_filterMap_congr
    intro i hi
    rw [errEntry, hatt i hi]
    simp only [if_true]
  · rw [hq]
    apply aux_filterMap_congr
    intro i hi
    rw [passFate, hatt i hi]
    simp only [if_true]
    cases env.deliver i with
    | ok v => rfl
    | error m => rfl
  · intro i hi hok j hj hji
    rw [hq] at hj
    obtain ⟨a, ha, hfa⟩ := List.mem_filterMap.mp hj
    have hai : a = i := mem_id_inj hnd ha hi ((passFate_id hfa) ▸ hji)
    subst hai
    rw [passFate, hatt a ha] at hfa
    simp only [if_true] at hfa
    cases hd : env.deliver a with
    | ok v => rw [hd] at hfa; simp at hfa
    | error m => rw [hd] at hok; simp [isOkB] at hok

/-- Witness for C2 at a two-item queue where item 1 succeeds and item 2
fails: the pass completes with a result whose succeeded and failed counts
sum to the total. -/
theorem c2_witness :
    (syncAll envMixed stateTwo).2
      = Except.ok (SyncOutcome.completed (syncPassResults envMixed stateTwo)) ∧
    (syncPassResults envMixed stateTwo).succeeded
      + (syncPassResults envMixed stateTwo).failed
      = (syncPassResults envMixed stateTwo).total := by
  have h := c2_syncresult_accounting envMixed stateTwo rfl rfl (fun _ => rfl)
    (by decide) (by decide)
  exact ⟨h.1, h.2.2.2.2.1⟩

/-- C3 counterexample: in a state that is offline while a drain is marked
in progress (reachable, since connectivity can drop during an awaited
drain), syncAll returns reason "sync_in_progress", not "offline" as the
claim's offline clause demands. -/
theorem c3_counterexample :
    stateOffDraining.isOnline = false ∧
    (syncAll envTrivial stateOffDraining).2
      = Except.ok (SyncOutcome.rejected "sync_in_progress") ∧
    "sync_in_progress" ≠ "offline" :=
  ⟨rfl, rfl, by decide⟩

/-- C3 amended: syncAll called while offline and not draining returns the
"offline" rejection, called while draining (even if also offline) returns
the "sync_in_progress" rejection, both synchronously, without throwing and
with the state (queue, storage, flags, events) returned unchanged;
forceSync while offline raises "Cannot sync while offline" leaving the
state unchanged, and forceSync while online returns exactly what syncAll
returns. -/
theorem c3_rejection_and_force (env : Env) (s : SyncState) :
    (s.isOnline = false → s.syncInProgress = false →
        syncAll env s = (s, Except.ok (SyncOutcome.rejected "offline"))) ∧
    (s.syncInProgress = true →
        syncAll env s = (s, Except.ok (SyncOutcome.rejected "sync_in_progress"))) ∧
    (s.isOnline = false →
        forceSync env s = (s, Except.error "Cannot sync while offline")) ∧
    (s.isOnline = true → forceSync env s = syncAll env s) := by
  refine ⟨?_, ?_, ?_, ?_⟩
  · intro hoff hip
    unfold syncAll
    rw [hoff, hip]
    rfl
  · intro hip
    unfold syncAll
    rw [hip]
    simp
  · intro hoff
    unfold forceSync
    rw [hoff]
    rfl
  · intro hon
    unfold forceSync
    rw [hon]
    rfl

/-- Witness for C3 at the four concrete call situations. -/
theorem c3_witness :
    syncAll envTrivial stateOffline
      = (stateOffline, Except.ok (SyncOutcome.rejected "offline")) ∧
    syncAll envTrivial stateDraining
      = (stateDraining, Except.ok (SyncOutcome.rejected "sync_in_progress")) ∧
    forceSync envTrivial stateOffline
      = (stateOffline, Except.error "Cannot sync while offline") ∧
    forceSync envTrivial stateOne = syncAll envTrivial stateOne :=
  ⟨(c3_rejection_and_force envTrivial stateOffline).1 rfl rfl,
   (c3_rejection_and_force envTrivial stateDraining).2.1 rfl,
   (c3_rejection_and_force envTrivial stateOffline).2.2.1 rfl,
   (c3_rejection_and_force envTrivial stateOne).2.2.2 rfl⟩

/-- C4 failing input: with the unguarded status-slot write (line 191)
throwing, a drain pass that started (flag raised, syncStarted emitted)
never completes — syncAll rejects with the storage error, the manager is
left with `syncInProgress = true` forever, and no syncCompleted event is
delivered. -/
theorem c4_stuck_draining_on_status_write_failure :
    (syncAll envStatusWriteFails stateOne).1.syncInProgress = true ∧
    (syncAll envStatusWriteFails stateOne).2 = Except.error "storage_error" ∧
    (syncAll envStatusWriteFails stateOne).1.events = [Event.syncStarted] :=
  ⟨rfl, rfl, rfl⟩

/-- C5: while offline (with the queue-slot write succeeding) each enqueue
appends exactly one fresh pending item carrying the caller's fields
(method defaulting to "POST"), persists the queue, and returns the new
id; so after n calls the in-memory queue grew by exactly n items and the
persisted queue equals the in-memory one. -/
theorem c5_enqueue_offline (env : Env)
    (hW : env.setItemFails QUEUE_KEY = false) :
    (∀ (i : Nat) (op : Operation) (s : SyncState), s.isOnline = false →
        addToQueue env i op s
          = ({ s with
                syncQueue := s.syncQueue ++ [mkQueueItem i env.now op],
                storage := storeSet s.storage QUEUE_KEY
                  (.queueVal (s.syncQueue ++ [mkQueueItem i env.now op])) }, i)) ∧
    (∀ (i : Nat) (op : Operation),
        (mkQueueItem i env.now op).id = i ∧
        (mkQueueItem i env.now op).status = "pending" ∧
        (mkQueueItem i env.now op).retries = 0 ∧
        (mkQueueItem i env.now op).operation = op.type ∧
        (mkQueueItem i env.now op).data = op.data ∧
        (mkQueueItem i env.now op).url = op.url ∧
        (op.method = none → (mkQueueItem i env.now op).method = "POST")) ∧
    (∀ (calls : List (Nat × Operation)) (s : SyncState), s.isOnline = false →
        (enqueueAll env calls s).syncQueue.length
            = s.syncQueue.length + calls.length ∧
        (enqueueAll env calls s).isOnline = false ∧
        (calls ≠ [] →
            storeGet (enqueueAll env calls s).storage QUEUE_KEY
              = some (.queueVal (enqueueAll env calls s).syncQueue))) := by
  have h1 : ∀ (i : Nat) (op : Operation) (s : SyncState), s.isOnline = false →
      addToQueue env i op s
        = ({ s with
              syncQueue := s.syncQueue ++ [mkQueueItem i env.now op],
              storage := storeSet s.storage QUEUE_KEY
                (.queueVal (s.syncQueue ++ [mkQueueItem i env.now op])) }, i) := by
    intro i op s hoff
    unfold addToQueue saveQueue
    rw [hW]
    simp only [Bool.false_eq_true, if_false]
    rw [show ({ s with
        syncQueue := s.syncQueue ++ [mkQueueItem i env.now op],
        storage := storeSet s.storage QUEUE_KEY
          (.queueVal (s.syncQueue ++ [mkQueueItem i env.now op])) } : SyncState).isOnline
      = s.isOnline from rfl, hoff]
    simp
  refine ⟨h1, ?_, ?_⟩
  · intro i op
    refine ⟨rfl, rfl, rfl, rfl, rfl, rfl, fun h => ?_⟩
    simp [mkQueueItem, h]
  · intro calls
    induction calls with
    | nil =>
        intro s hoff
        exact ⟨rfl, hoff, fun h => absurd rfl h⟩
    | cons c calls ih =>
        intro s hoff
        have hEA : enqueueAll env (c :: calls) s
            = enqueueAll env calls (addToQueue env c.1 c.2 s).1 := rfl
        rw [hEA, h1 c.1 c.2 s hoff]
        obtain ⟨hlen, honline, hpers⟩ := ih ({ s with
            syncQueue := s.syncQueue ++ [mkQueueItem c.1 env.now c.2],
            storage := storeSet s.storage QUEUE_KEY
              (.queueVal (s.syncQueue ++ [mkQueueItem c.1 env.now c.2])) }) hoff
        refine ⟨?_, honline, fun _ => ?_⟩
        · rw [hlen]
          simp only [List.length_append, List.length_cons, List.length_nil]
          omega
        · cases calls with
          | nil => exact storeGet_set _ _ _
          | cons d ds => exact hpers (by simp)

/-- Witness for C5: two offline enqueues produce an in-memory queue of
length two whose persisted copy matches it. -/
theorem c5_witness :
    (enqueueAll envTrivial callsFixture stateOfflineEmpty).syncQueue.length = 2 ∧
    storeGet (enqueueAll envTrivial callsFixture stateOfflineEmpty).storage QUEUE_KEY
      = some (.queueVal (enqueueAll envTrivial callsFixture stateOfflineEmpty).syncQueue) := by
  have h := (c5_enqueue_offline envTrivial rfl).2.2 callsFixture stateOfflineEmpty rfl
  exact ⟨by rw [h.1]; rfl, h.2.2 (by simp [callsFixture])⟩

/-- C6 failing input: the status-slot write inside a drain is the one
storage write not wrapped in try/catch, so its failure escapes to the
caller of syncAll; the read side behaves as claimed (corrupt or missing
queue slot loads as an empty queue on a fresh manager, without raising). -/
theorem c6_storage_write_failure_raises :
    (syncAll envStatusWriteFails stateTwo).2 = Except.error "storage_error" ∧
    (loadQueue envTrivial (initialState [(QUEUE_KEY, StoredValue.corrupt)])).syncQueue
      = [] ∧
    (loadQueue envTrivial (initialState [])).syncQueue = [] :=
  ⟨rfl, rfl, rfl⟩

/-- C7 counterexample: with the connectivity probe rejecting, initialize
itself rejects with that error instead of completing with `true` — the
error is not caught inside the method. -/
theorem c7_counterexample :
    (initManager envNetDown (initialState [])).2 = Except.error "netinfo down" :=
  rfl

/-- C7 amended: an error of the connectivity probe propagates out of
initialize (there is no catch inside the method; the app-level callers
catch it instead), and the manager's online flag keeps its previous value
— the constructor default `true` — because the assignment is never
reached; only the queue-load step catches its own storage errors. -/
theorem c7_probe_error_propagates (env : Env) (s : SyncState) (msg : String)
    (h : env.netFetch = Except.error msg) :
    (initManager env s).2 = Except.error msg ∧
    (initManager env s).1.isOnline = s.isOnline := by
  unfold initManager
  rw [h]
  exact ⟨rfl, loadQueue_isOnline env s⟩

/-- Witness for C7 with a failing probe over a constructor-fresh state. -/
theorem c7_witness :
    (initManager envNetDown stateOfflineEmpty).2 = Except.error "netinfo down" ∧
    (initManager envNetDown stateOfflineEmpty).1.isOnline
      = stateOfflineEmpty.isOnline :=
  c7_probe_error_propagates envNetDown stateOfflineEmpty "netinfo down" rfl

/-- C8 counterexample: a connectivity notification that recomputes the
same boolean (online before, `true && true` after) still emits an
`{online}` event — the code notifies unconditionally, contradicting the
claim that no event is emitted when the value is unchanged. -/
theorem c8_counterexample :
    stateOne.isOnline = (true && true) ∧
    (handleNetChange envTrivial ⟨true, true⟩ stateOne).events
      = [Event.online true] :=
  ⟨rfl, rfl⟩

/-- C8 amended: every connectivity notification emits an `{online: bool}`
event with the newly computed boolean, whether or not it changed; the
previous value is consulted only to fire the auto-sync on an
offline-to-online transition (whose own events follow the online event). -/
theorem c8_event_on_every_notification (env : Env) (st : NetState)
    (s : SyncState) :
    (∃ t, (handleNetChange env st s).events
        = s.events ++ [Event.online (st.isConnected && st.isInternetReachable)] ++ t) ∧
    (handleNetChange env st s).isOnline
      = (st.isConnected && st.isInternetReachable) := by
  have hb : handleNetChange env st s
      = (if (!s.isOnline && (st.isConnected && st.isInternetReachable)) = true
         then (syncAll env (notifyListeners
            (.online (st.isConnected && st.isInternetReachable))
            { s with isOnline := st.isConnected && st.isInternetReachable })).1
         else notifyListeners (.online (st.isConnected && st.isInternetReachable))
            { s with isOnline := st.isConnected && st.isInternetReachable }) := rfl
  rw [hb]
  constructor
  · split
    · obtain ⟨t, ht⟩ := syncAll_events_extends env
        (notifyListeners (.online (st.isConnected && st.isInternetReachable))
          { s with isOnline := st.isConnected && st.isInternetReachable })
      refine ⟨t, ?_⟩
      rw [ht]
      simp [notifyListeners]
    · exact ⟨[], by simp [notifyListeners]⟩
  · split
    · rw [syncAll_isOnline]
      rfl
    · rfl

/-- C9 counterexample: two environments agreeing on everything except the
clock give different "merge" results on identical (serverData, localData,
strategy), so resolveConflict is not a pure function of those three
arguments alone. -/
theorem c9_counterexample :
    resolveConflict envClockA [] [] "merge"
      ≠ resolveConflict envClockB [] [] "merge" ∧
    envClockA.deliver = envClockB.deliver ∧
    envClockA.setItemFails = envClockB.setItemFails ∧
    envClockA.getItemFails = envClockB.getItemFails ∧
    envClockA.netFetch = envClockB.netFetch :=
  ⟨by decide, rfl, rfl, rfl, rfl⟩

/-- C9 amended: resolveConflict depends only on (serverData, localData,
strategy) for every strategy except "merge", whose result additionally
carries the current clock in the `_mergedAt` marker; per strategy:
server_wins and any unrecognized name (hence the omitted default) return
serverData, local_wins returns localData, newer_wins compares the records'
own timestamps (absent treated as 0, ties to the server), and merge is the
shallow merge with localData overriding serverData plus the two marker
fields. -/
theorem c9_resolve_strategies (env env2 : Env) (serverData localData : JRecord)
    (strategy : String) :
    resolveConflict env serverData localData "server_wins" = serverData ∧
    resolveConflict env serverData localData "local_wins" = localData ∧
    (getTime serverData < getTime localData →
        resolveConflict env serverData localData "newer_wins" = localData) ∧
    (¬ getTime serverData < getTime localData →
        resolveConflict env serverData localData "newer_wins" = serverData) ∧
    (lookupKey "timestamp" serverData = none → getTime serverData = 0) ∧
    (strategy ≠ "server_wins" → strategy ≠ "local_wins" → strategy ≠ "merge" →
        strategy ≠ "newer_wins" →
        resolveConflict env serverData localData strategy = serverData) ∧
    lookupKey "_merged" (resolveConflict env serverData localData "merge")
      = some (JVal.b true) ∧
    lookupKey "_mergedAt" (resolveConflict env serverData localData "merge")
      = some (JVal.s env.now) ∧
    (∀ k, k ≠ "_merged" → k ≠ "_mergedAt" →
        lookupKey k (resolveConflict env serverData localData "merge")
          = match lookupKey k localData with
            | some v => some v
            | none => lookupKey k serverData) ∧
    (strategy ≠ "merge" →
        resolveConflict env serverData localData strategy
          = resolveConflict env2 serverData localData strategy) := by
  have hmerge : resolveConflict env serverData localData "merge"
      = spread (spread serverData localData)
          [("_merged", JVal.b true), ("_mergedAt", JVal.s env.now)] := rfl
  refine ⟨rfl, rfl, ?_, ?_, ?_, ?_, ?_, ?_, ?_, ?_⟩
  · intro h
    show (if getTime serverData < getTime localData then localData else serverData)
        = localData
    rw [if_pos h]
  · intro h
    show (if getTime serverData < getTime localData then localData else serverData)
        = serverData
    rw [if_neg h]
  · intro h
    unfold getTime
    rw [h]
  · intro h1 h2 h3 h4
    unfold resolveConflict
    rw [if_neg h1, if_neg h2, if_neg h3, if_neg h4]
  · rw [hmerge, lookupKey_spread]
    rfl
  · rw [hmerge, lookupKey_spread]
    rfl
  · intro k hk1 hk2
    rw [hmerge, lookupKey_spread]
    have hmark : lookupKey k
        [("_merged", JVal.b true), ("_mergedAt", JVal.s env.now)] = none := by
      simp only [lookupKey]
      rw [if_neg (fun h => hk1 h.symm), if_neg (fun h => hk2 h.symm)]
    rw [hmark, lookupKey_spread]
  · intro h3
    unfold resolveConflict
    by_cases h1 : strategy = "server_wins"
    · rw [if_pos h1, if_pos h1]
    · rw [if_neg h1, if_neg h1]
      by_cases h2 : strategy = "local_wins"
      · rw [if_pos h2, if_pos h2]
      · rw [if_neg h2, if_neg h2, if_neg h3, if_neg h3]

/-- Witness for C9 at concrete records and strategies. -/
theorem c9_witness :
    resolveConflict envTrivial [("a", JVal.n 1)] [("a", JVal.n 2)] "server_wins"
      = [("a", JVal.n 1)] ∧
    resolveConflict envTrivial [("timestamp", JVal.n 5)] [("timestamp", JVal.n 9)]
        "newer_wins"
      = [("timestamp", JVal.n 9)] ∧
    resolveConflict envTrivial [("a", JVal.n 1)] [] "weird" = [("a", JVal.n 1)] := by
  have h1 := c9_resolve_strategies envTrivial envClockA
    [("a", JVal.n 1)] [("a", JVal.n 2)] "weird"
  have h2 := c9_resolve_strategies envTrivial envClockA
    [("timestamp", JVal.n 5)] [("timestamp", JVal.n 9)] "weird"
  exact ⟨h1.1, h2.2.2.1 (by decide),
    h1.2.2.2.2.2.1 (by decide) (by decide) (by decide) (by decide)⟩

/-- C10: removeQueueItem removes exactly the entries whose id equals the
argument (all of them), keeps every other item, in order, persists the
filtered queue (when the write does not fault), and leaves the online
flag, the in-progress flag, the listener list and the notification log
untouched. -/
theorem c10_removeQueueItem_frame (env : Env) (idArg : Nat) (s : SyncState) :
    (removeQueueItem env idArg s).syncQueue
      = s.syncQueue.filter (fun i => i.id ≠ idArg) ∧
    (∀ i ∈ (removeQueueItem env idArg s).syncQueue,
        i.id ≠ idArg ∧ i ∈ s.syncQueue) ∧
    (∀ i ∈ s.syncQueue, i.id ≠ idArg →
        i ∈ (removeQueueItem env idArg s).syncQueue) ∧
    (removeQueueItem env idArg s).isOnline = s.isOnline ∧
    (removeQueueItem env idArg s).syncInProgress = s.syncInProgress ∧
    (removeQueueItem env idArg s).listeners = s.listeners ∧
    (removeQueueItem env idArg s).events = s.events ∧
    (env.setItemFails QUEUE_KEY = false →
        storeGet (removeQueueItem env idArg s).storage QUEUE_KEY
          = some (.queueVal (s.syncQueue.filter (fun i => i.id ≠ idArg)))) := by
  have hqueue : (removeQueueItem env idArg s).syncQueue
      = s.syncQueue.filter (fun i => i.id ≠ idArg) := by
    unfold removeQueueItem saveQueue
    split <;> rfl
  refine ⟨hqueue, ?_, ?_, ?_, ?_, ?_, ?_, ?_⟩
  · intro i hi
    rw [hqueue] at hi
    have h := List.mem_filter.mp hi
    exact ⟨by simpa using h.2, h.1⟩
  · intro i hi hne
    rw [hqueue]
    exact List.mem_filter.mpr ⟨hi, by simpa using hne⟩
  · unfold removeQueueItem saveQueue
    split <;> rfl
  · unfold removeQueueItem saveQueue
    split <;> rfl
  · unfold removeQueueItem saveQueue
    split <;> rfl
  · unfold removeQueueItem saveQueue
    split <;> rfl
  · intro hw
    unfold removeQueueItem saveQueue
    rw [hw]
    simp only [Bool.false_eq_true, if_false]
    exact storeGet_set _ _ _

/-- Witness for C10: removing id 1 from the two-item queue keeps exactly
item 2 and persists the filtered queue. -/
theorem c10_witness :
    (removeQueueItem envTrivial 1 stateTwo).syncQueue
      = stateTwo.syncQueue.filter (fun i => i.id ≠ 1) ∧
    storeGet (removeQueueItem envTrivial 1 stateTwo).storage QUEUE_KEY
      = some (.queueVal (stateTwo.syncQueue.filter (fun i => i.id ≠ 1))) := by
  have h := c10_removeQueueItem_frame envTrivial 1 stateTwo
  exact ⟨h.1, h.2.2.2.2.2.2.2 rfl⟩

end OfflineSync
